import Mathlib

/-!
Verification of the event-driven chat server
(src/event-driven-architecture/app.go) against its specification.

The Go source is shallowly embedded:
* Go strings that carry message bytes are modelled as `List UInt8`
  (a Go string is an immutable byte sequence; `string(b)` and `[]byte(s)`
  are byte-identity conversions, so reads and writes relay bytes verbatim).
* `net.Conn` values are opaque handles with an identity and a remote
  address; the Go `map[net.Conn]bool` registry is a duplicate-free list.
* `map[string][]EventHandler` is an association list with the Go map
  operations (lookup of an absent key yields the empty slice; store
  replaces or appends an entry).
* Side effects (`fmt.Printf`, `conn.Write`) become an explicit effect
  trace; a failed runtime type assertion (`event.Data.(T)`) becomes the
  `panicErr` outcome; write outcomes of the environment are an oracle
  `W : Conn → Bool`.
* The mutually recursive dispatch (the broadcast handler re-enters
  `Dispatch` with a `disconnected` event) is interpreted with explicit
  fuel; with the wiring installed by `ChatServer.Start` the nesting depth
  is at most two, so any fuel ≥ 2 gives the exact semantics.
-/

namespace GoChat

/-- Go string carrying message bytes (a Go string is a byte sequence). -/
abbrev GoStr := List UInt8

/-- Opaque error value (stands for a Go `error`). -/
abbrev GoErr := Nat

/-- A `net.Conn` handle: identity plus the remote address reported by
`RemoteAddr().String()`. Two handles are the same connection iff they are
equal. -/
structure Conn where
  id : Nat
  addr : GoStr
  deriving DecidableEq

/-- The dynamic payload stored in `Event.Data` (Go `interface{}`): the
program only ever stores connection handles and strings; `intVal` stands
for any other dynamic value. -/
inductive GoValue where
  | conn (c : Conn)
  | str (s : GoStr)
  | intVal (n : Int)
  deriving DecidableEq

/-- Discriminator: is the dynamic value a connection handle?
(The Go assertion `event.Data.(net.Conn)` succeeds exactly here.) -/
def isConnVal : GoValue → Bool
  | .conn _ => true
  | _ => false

/-- Discriminator: is the dynamic value a string?
(The Go assertion `event.Data.(string)` succeeds exactly here.) -/
def isStrVal : GoValue → Bool
  | .str _ => true
  | _ => false

/-- `type Event struct { Type string; Data interface{} }`. -/
structure Event where
  type : String
  data : GoValue
  deriving DecidableEq

/-- Outcome of running embedded code: a Go panic (failed type assertion)
or exhaustion of the interpreter fuel. -/
inductive RunErr where
  | panicErr
  | fuelOut
  deriving DecidableEq

/-- Observable side effects of the program, one constructor per
`fmt.Printf` call / `conn.Write` call in the source. `startReader c`
would be emitted by a `go NewClient(conn, bus).Start()` statement; the
source contains no such call (`Client.Start` is never invoked), so no
definition below emits it. -/
inductive Eff where
  | printListening (port : String)
  | printAcceptError (e : GoErr)
  | printNewConnection (addr : GoStr)
  | printDisconnected (addr : GoStr)
  | write (c : Conn) (bytes : GoStr)
  | printStartError (e : GoErr)
  | startReader (c : Conn)
  deriving DecidableEq

/-- Go map lookup `m[k]` on `map[string][]T`: the entry stored under
`k`, or the zero value (empty slice) for an absent key. -/
def mapGet {α : Type} (m : List (String × List α)) (k : String) : List α :=
  match m with
  | [] => []
  | p :: rest => if p.1 == k then p.2 else mapGet rest k

/-- Go map store `m[k] = v` on `map[string][]T`: replaces the entry
stored under `k`, or adds one if `k` is absent (keys stay unique). -/
def mapSet {α : Type} (m : List (String × List α)) (k : String) (v : List α) :
    List (String × List α) :=
  match m with
  | [] => [(k, v)]
  | p :: rest => if p.1 == k then (k, v) :: rest else p :: mapSet rest k v

/-- `type EventBus struct { handlers map[string][]EventHandler }`.
Handlers are abstract (`α`); the chat server instantiates `α` with the
names of its three methods. -/
structure EventBus (α : Type) where
  handlers : List (String × List α)
  deriving DecidableEq

/-- `func NewEventBus() *EventBus` — empty handler map. -/
def NewEventBus {α : Type} : EventBus α := ⟨[]⟩

/-- `func (eb *EventBus) Register(eventType string, handler EventHandler)`:
reads the current slice for `eventType`, appends, stores it back. -/
def EventBus.Register {α : Type} (eb : EventBus α) (eventType : String) (handler : α) :
    EventBus α :=
  let handlers := mapGet eb.handlers eventType
  ⟨mapSet eb.handlers eventType (handlers ++ [handler])⟩

/-- The `for _, handler := range handlers { handler(event) }` loop of
`Dispatch`: runs each handler in order on the caller's state, threading
the state and concatenating emitted effects; a handler panic propagates
(aborts the remaining handlers, as a Go panic unwinds the loop). -/
def runSeq {α σ ε : Type} (run : α → Event → σ → Except RunErr (σ × List ε)) :
    List α → Event → σ → Except RunErr (σ × List ε)
  | [], _, s => .ok (s, [])
  | h :: hs, ev, s =>
    match run h ev s with
    | .error e => .error e
    | .ok (s1, out1) =>
      match runSeq run hs ev s1 with
      | .error e => .error e
      | .ok (s2, out2) => .ok (s2, out1 ++ out2)

/-- `func (eb *EventBus) Dispatch(eventType string, data interface{})`:
wraps the payload in an `Event` and synchronously runs every handler
registered for `eventType`, in registration order, on the calling
thread's state `s`; it returns only after all handlers have returned
(the resulting state is the one after the last handler). `run` gives the
semantics of one handler call. -/
def EventBus.Dispatch {α σ ε : Type} (run : α → Event → σ → Except RunErr (σ × List ε))
    (eb : EventBus α) (eventType : String) (data : GoValue) (s : σ) :
    Except RunErr (σ × List ε) :=
  let event : Event := ⟨eventType, data⟩
  runSeq run (mapGet eb.handlers eventType) event s

/-- Instrumentation: a handler semantics that records each handler
invocation (which handler, on which event) and changes nothing. -/
def logInvoke {α : Type} : α → Event → Unit → Except RunErr (Unit × List α) :=
  fun h _ s => .ok (s, [h])

/-- Register a list of handlers one by one, in order. -/
def registerList {α : Type} (eb : EventBus α) (t : String) (hs : List α) : EventBus α :=
  hs.foldl (fun b h => b.Register t h) eb

/-- The event type string literals of the source. -/
def newConnectionType : String := "new-connection"

/-- Event type of the disconnection events. -/
def disconnectedType : String := "disconnected"

/-- Event type of the broadcast events. -/
def messageReceivedType : String := "message-received"

/-- The three handler methods the chat server registers; the bus stores
these names, and `runHandler` gives each its semantics. -/
inductive HandlerId where
  | onNewConnection
  | onDisconnected
  | onMessageReceived
  deriving DecidableEq

/-- `type ChatServer struct { eventBus *EventBus; clients map[net.Conn]bool }`.
The client registry is a duplicate-free list standing for the Go set. -/
structure ChatServer where
  eventBus : EventBus HandlerId
  clients : List Conn
  deriving DecidableEq

/-- `func NewChatServer() *ChatServer` — empty bus, empty registry. -/
def NewChatServer : ChatServer := ⟨NewEventBus, []⟩

/-- Go map insert `cs.clients[conn] = true`: a set insert. -/
def clientsInsert (l : List Conn) (c : Conn) : List Conn :=
  if c ∈ l then l else l ++ [c]

/-- Go `delete(cs.clients, conn)`: afterwards `conn` is absent;
deleting an absent key is a no-op. -/
def clientsDelete (l : List Conn) (c : Conn) : List Conn :=
  l.filter (fun x => decide (x ≠ c))

/-- Type of a dispatch entry point on the chat server state
(what `cs.eventBus.Dispatch` is to a handler body). -/
abbrev DispatchFn := String → GoValue → ChatServer → Except RunErr (ChatServer × List Eff)

/-- `func (cs *ChatServer) onNewConnection(event Event)`:
asserts the payload is a `net.Conn` (panicking otherwise), inserts it in
the registry and prints the notice. -/
def onNewConnection (event : Event) (cs : ChatServer) :
    Except RunErr (ChatServer × List Eff) :=
  match event.data with
  | .conn c => .ok ({ cs with clients := clientsInsert cs.clients c },
      [Eff.printNewConnection c.addr])
  | _ => .error .panicErr

/-- `func (cs *ChatServer) onDisconnected(event Event)`:
asserts the payload is a `net.Conn` (panicking otherwise), deletes it
from the registry and prints the notice. -/
def onDisconnected (event : Event) (cs : ChatServer) :
    Except RunErr (ChatServer × List Eff) :=
  match event.data with
  | .conn c => .ok ({ cs with clients := clientsDelete cs.clients c },
      [Eff.printDisconnected c.addr])
  | _ => .error .panicErr

/-- The `for conn := range cs.clients` body of `onMessageReceived`: the
loop runs over the registry as it was when the loop started (`snap`),
skipping entries already deleted from the live registry (Go range does
not produce entries removed before being reached; nothing inserts during
the loop). A successful write (`W c = true`) emits the message bytes to
`c`; a failed write dispatches `disconnected` for `c` through `go` and
the loop continues. -/
def broadcastWrites (go : DispatchFn) (W : Conn → Bool) (msg : GoStr) :
    List Conn → ChatServer → Except RunErr (ChatServer × List Eff)
  | [], cs => .ok (cs, [])
  | c :: rest, cs =>
    if c ∈ cs.clients then
      if W c then
        match broadcastWrites go W msg rest cs with
        | .error e => .error e
        | .ok (cs2, out2) => .ok (cs2, Eff.write c msg :: out2)
      else
        match go disconnectedType (.conn c) cs with
        | .error e => .error e
        | .ok (cs1, out1) =>
          match broadcastWrites go W msg rest cs1 with
          | .error e => .error e
          | .ok (cs2, out2) => .ok (cs2, out1 ++ out2)
    else
      broadcastWrites go W msg rest cs

/-- `func (cs *ChatServer) onMessageReceived(event Event)`:
asserts the payload is a string (panicking otherwise) and writes its
bytes to every registry member, self-healing on write failure. -/
def onMessageReceived (go : DispatchFn) (W : Conn → Bool) (event : Event)
    (cs : ChatServer) : Except RunErr (ChatServer × List Eff) :=
  match event.data with
  | .str msg => broadcastWrites go W msg cs.clients cs
  | _ => .error .panicErr

/-- Semantics of one chat-server handler call; `go` is the dispatch
entry point a handler body may re-enter (`cs.eventBus.Dispatch`). -/
def runHandler (go : DispatchFn) (W : Conn → Bool) (h : HandlerId) (event : Event)
    (cs : ChatServer) : Except RunErr (ChatServer × List Eff) :=
  match h with
  | .onNewConnection => onNewConnection event cs
  | .onDisconnected => onDisconnected event cs
  | .onMessageReceived => onMessageReceived go W event cs

/-- `cs.eventBus.Dispatch` with the chat-server handlers, interpreted
with fuel: each nested re-entry into `Dispatch` consumes one unit. With
the wiring of `ChatServer.Start` the nesting depth is at most two
(`message-received` → `disconnected`), so any fuel ≥ 2 is exact. -/
def dispatchServer (W : Conn → Bool) : Nat → DispatchFn
  | 0 => fun _ _ _ => .error .fuelOut
  | fuel + 1 => fun t d cs =>
      EventBus.Dispatch (runHandler (dispatchServer W fuel) W) cs.eventBus t d cs

/-- The three `Register` calls of `ChatServer.Start`, in source order. -/
def registerStartHandlers (eb : EventBus HandlerId) : EventBus HandlerId :=
  ((eb.Register newConnectionType .onNewConnection).Register
      disconnectedType .onDisconnected).Register
    messageReceivedType .onMessageReceived

/-- The handler table after `ChatServer.Start` has wired its handlers
into a fresh bus. -/
def startBus : EventBus HandlerId := registerStartHandlers NewEventBus

/-- One result of `listener.Accept()`. -/
inductive AcceptResult where
  | ok (c : Conn)
  | err (e : GoErr)
  deriving DecidableEq

/-- One iteration of the accept loop in `ChatServer.Start`: a failed
accept prints the error and continues; a successful accept dispatches
`new-connection` with the handle — and does nothing else (in particular,
the source never calls `NewClient`/`Client.Start`, so no reader loop is
started and no `Eff.startReader` is emitted). -/
def acceptIter (W : Conn → Bool) (fuel : Nat) (r : AcceptResult) (cs : ChatServer) :
    Except RunErr (ChatServer × List Eff) :=
  match r with
  | .err e => .ok (cs, [Eff.printAcceptError e])
  | .ok c => dispatchServer W fuel newConnectionType (.conn c) cs

/-- The accept loop of `ChatServer.Start`, run over a finite prefix of
accept outcomes supplied by the environment (the real loop is infinite). -/
def acceptLoop (W : Conn → Bool) (fuel : Nat) :
    List AcceptResult → ChatServer → Except RunErr (ChatServer × List Eff)
  | [], cs => .ok (cs, [])
  | r :: rs, cs =>
    match acceptIter W fuel r cs with
    | .error e => .error e
    | .ok (cs1, out1) =>
      match acceptLoop W fuel rs cs1 with
      | .error e => .error e
      | .ok (cs2, out2) => .ok (cs2, out1 ++ out2)

/-- `func (cs *ChatServer) Start(port string) error`: `listenErr` is the
outcome of `net.Listen` and `accepts` the outcomes of the successive
`listener.Accept()` calls. On listen failure the error is returned at
once — before the listening banner, before any `Register` call and
before any accept. Otherwise the banner is printed, the three handlers
are registered, and the accept loop runs (the real loop never returns;
`none` in the result means the server is still serving after the given
accept outcomes). -/
def ChatServer.Start (W : Conn → Bool) (fuel : Nat) (port : String)
    (listenErr : Option GoErr) (accepts : List AcceptResult) (cs : ChatServer) :
    Except RunErr (ChatServer × List Eff × Option GoErr) :=
  match listenErr with
  | some e => .ok (cs, [], some e)
  | none =>
    let cs1 : ChatServer := { cs with eventBus := registerStartHandlers cs.eventBus }
    match acceptLoop W fuel accepts cs1 with
    | .error e => .error e
    | .ok (cs2, out) => .ok (cs2, Eff.printListening port :: out, none)

/-- The port literal of `main`. -/
def mainPort : String := ":8000"

/-- `func main()`: creates a fresh server, runs `Start(":8000")` and, if
it returned an error, prints it and returns (the process exits). -/
def mainGo (W : Conn → Bool) (fuel : Nat) (listenErr : Option GoErr)
    (accepts : List AcceptResult) : Except RunErr (ChatServer × List Eff) :=
  match ChatServer.Start W fuel mainPort listenErr accepts NewChatServer with
  | .error e => .error e
  | .ok (cs, out, some e) => .ok (cs, out ++ [Eff.printStartError e])
  | .ok (cs, out, none) => .ok (cs, out)

/-- `type Client struct { conn net.Conn; eventBus *EventBus }`. -/
structure Client where
  conn : Conn
  deriving DecidableEq

/-- The `for` loop of `Client.Start`: each call to `c.conn.Read` fills a
fixed 1024-byte buffer; the environment supplies the successive
successful reads `reads` (each a chunk of at most 1024 bytes), after
which the next read fails. Each successful read of a chunk `bs`
dispatches exactly one `message-received` event carrying exactly those
bytes (`msg := string(buf[:n])`); the failed read dispatches
`disconnected` and breaks — the only exit of the loop. `go` is the
dispatch entry point `c.eventBus.Dispatch`. -/
def readerLoop {σ ε : Type} (go : String → GoValue → σ → Except RunErr (σ × List ε))
    (c : Conn) : List GoStr → σ → Except RunErr (σ × List ε)
  | [], s => go disconnectedType (.conn c) s
  | bs :: rest, s =>
    match go messageReceivedType (.str bs) s with
    | .error e => .error e
    | .ok (s1, out1) =>
      match readerLoop go c rest s1 with
      | .error e => .error e
      | .ok (s2, out2) => .ok (s2, out1 ++ out2)

/-- `func (c *Client) Start()`: dispatches `new-connection` for its own
connection, then runs the reader loop. (Dead code in the source: nothing
ever calls it.) -/
def Client.Start {σ ε : Type} (go : String → GoValue → σ → Except RunErr (σ × List ε))
    (cl : Client) (reads : List GoStr) (s : σ) : Except RunErr (σ × List ε) :=
  match go newConnectionType (.conn cl.conn) s with
  | .error e => .error e
  | .ok (s1, out1) =>
    match readerLoop go cl.conn reads s1 with
    | .error e => .error e
    | .ok (s2, out2) => .ok (s2, out1 ++ out2)

/-- Instrumentation: a dispatch entry point that records each dispatch
(event type and payload) and changes nothing. -/
def logDispatch : String → GoValue → Unit → Except RunErr (Unit × List (String × GoValue)) :=
  fun t d s => .ok (s, [(t, d)])

/-- The effect trace of one broadcast over the registry members `l`:
for each member in order, either the verbatim message bytes (write
succeeded) or the disconnect notice emitted by the self-healing
`disconnected` dispatch (write failed). -/
def broadcastEffs (W : Conn → Bool) (msg : GoStr) : List Conn → List Eff
  | [] => []
  | c :: rest =>
    (if W c then [Eff.write c msg] else [Eff.printDisconnected c.addr])
      ++ broadcastEffs W msg rest

/-- Concrete connections and oracles for the concrete evaluations. -/
def connA : Conn := ⟨0, [65]⟩

/-- A second concrete connection. -/
def connB : Conn := ⟨1, [66]⟩

/-- Write oracle under which every write succeeds. -/
def wAll : Conn → Bool := fun _ => true

/-- Write oracle under which only `connA` accepts writes. -/
def wOnlyA : Conn → Bool := fun c => c.id == 0

/-- An event type name no handler is ever registered for. -/
def otherType : String := "other-event"

/-- A concrete handler semantics over counters, used to evaluate the bus
at concrete inputs. -/
def addInvoke : Nat → Event → Nat → Except RunErr (Nat × List Nat) :=
  fun h _ s => .ok (s + h, [h])

/-- The dispatch calls a reader loop makes when the environment yields
the successful reads `reads` and then a read failure: one
`message-received` per chunk, carrying exactly its bytes, in order,
followed by exactly one `disconnected`. -/
def readerDispatchTrace (c : Conn) (reads : List GoStr) : List (String × GoValue) :=
  reads.map (fun bs => (messageReceivedType, GoValue.str bs))
    ++ [(disconnectedType, GoValue.conn c)]

/-! ### Map and registry lemmas -/

lemma mapGet_mapSet_self {α : Type} (m : List (String × List α)) (k : String)
    (v : List α) : mapGet (mapSet m k v) k = v := by
  induction m with
  | nil => simp [mapGet, mapSet]
  | cons p rest ih =>
    by_cases hp : (p.1 == k) = true
    · simp [mapSet, hp, mapGet]
    · simp [mapSet, hp, mapGet, ih]

lemma mapGet_mapSet_ne {α : Type} (m : List (String × List α)) {k k' : String}
    (v : List α) (hne : k' ≠ k) : mapGet (mapSet m k v) k' = mapGet m k' := by
  induction m with
  | nil =>
    have : (k == k') = false := by
      simp only [beq_eq_false_iff_ne, ne_eq]
      exact fun h => hne h.symm
    simp [mapGet, mapSet, this]
  | cons p rest ih =>
    by_cases hp : (p.1 == k) = true
    · have hpk : p.1 = k := by simpa using hp
      have : (k == k') = false := by
        simp only [beq_eq_false_iff_ne, ne_eq]
        exact fun h => hne h.symm
      simp [mapSet, hp, mapGet, this, hpk]
    · simp [mapSet, hp, mapGet, ih]

lemma mapGet_Register_self {α : Type} (eb : EventBus α) (t : String) (h : α) :
    mapGet (eb.Register t h).handlers t = mapGet eb.handlers t ++ [h] := by
  simp [EventBus.Register, mapGet_mapSet_self]

lemma mapGet_Register_ne {α : Type} (eb : EventBus α) {t t' : String} (h : α)
    (hne : t' ≠ t) : mapGet (eb.Register t h).handlers t' = mapGet eb.handlers t' := by
  simp [EventBus.Register, mapGet_mapSet_ne _ _ hne]

lemma mapGet_registerList {α : Type} (eb : EventBus α) (t : String) (hs : List α) :
    mapGet (registerList eb t hs).handlers t = mapGet eb.handlers t ++ hs := by
  induction hs generalizing eb with
  | nil => simp [registerList]
  | cons h hs ih =>
    have : registerList eb t (h :: hs) = registerList (eb.Register t h) t hs := by
      simp [registerList]
    rw [this, ih, mapGet_Register_self, List.append_assoc]
    rfl

lemma runSeq_logInvoke {α : Type} (hs : List α) (ev : Event) :
    runSeq logInvoke hs ev () = .ok ((), hs) := by
  induction hs with
  | nil => rfl
  | cons h hs ih => simp [runSeq, logInvoke, ih]

lemma mem_clientsInsert_self (l : List Conn) (c : Conn) : c ∈ clientsInsert l c := by
  unfold clientsInsert
  by_cases h : c ∈ l <;> simp [h]

lemma not_mem_clientsDelete_self (l : List Conn) (c : Conn) :
    c ∉ clientsDelete l c := by
  simp [clientsDelete, List.mem_filter]

lemma clientsDelete_of_not_mem {l : List Conn} {c : Conn} (h : c ∉ l) :
    clientsDelete l c = l := by
  unfold clientsDelete
  refine List.filter_eq_self.mpr ?_
  intro a ha
  have : a ≠ c := fun heq => h (heq ▸ ha)
  simpa using this

lemma mem_clientsDelete {l : List Conn} {x c : Conn} :
    x ∈ clientsDelete l c ↔ x ∈ l ∧ x ≠ c := by
  simp [clientsDelete, List.mem_filter]

/-! ### The dispatcher never touches the handler table -/

/-- A dispatch entry point that leaves the handler table alone. -/
def PreservesBus (go : DispatchFn) : Prop :=
  ∀ t d cs res, go t d cs = .ok res → res.1.eventBus = cs.eventBus

lemma broadcastWrites_eventBus {go : DispatchFn} (hgo : PreservesBus go)
    (W : Conn → Bool) (msg : GoStr) :
    ∀ snap cs res, broadcastWrites go W msg snap cs = .ok res →
      res.1.eventBus = cs.eventBus := by
  intro snap
  induction snap with
  | nil =>
    intro cs res h
    simp only [broadcastWrites] at h
    cases h
    rfl
  | cons c rest ih =>
    intro cs res h
    unfold broadcastWrites at h
    split at h
    · split at h
      · cases hrec : broadcastWrites go W msg rest cs with
        | error e => rw [hrec] at h; cases h
        | ok r =>
          rw [hrec] at h
          cases h
          exact ih cs r hrec
      · cases hgo1 : go disconnectedType (.conn c) cs with
        | error e => rw [hgo1] at h; cases h
        | ok r1 =>
          rw [hgo1] at h
          cases hrec : broadcastWrites go W msg rest r1.1 with
          | error e => simp only [hrec] at h; cases h
          | ok r2 =>
            simp only [hrec] at h
            cases h
            rw [ih r1.1 r2 hrec]
            exact hgo _ _ _ _ hgo1
    · exact ih cs res h

lemma onNewConnection_eventBus {ev : Event} {cs : ChatServer}
    {res : ChatServer × List Eff} (hok : onNewConnection ev cs = .ok res) :
    res.1.eventBus = cs.eventBus := by
  unfold onNewConnection at hok
  cases hev : ev.data with
  | conn c => rw [hev] at hok; cases hok; rfl
  | str s => rw [hev] at hok; cases hok
  | intVal n => rw [hev] at hok; cases hok

lemma onDisconnected_eventBus {ev : Event} {cs : ChatServer}
    {res : ChatServer × List Eff} (hok : onDisconnected ev cs = .ok res) :
    res.1.eventBus = cs.eventBus := by
  unfold onDisconnected at hok
  cases hev : ev.data with
  | conn c => rw [hev] at hok; cases hok; rfl
  | str s => rw [hev] at hok; cases hok
  | intVal n => rw [hev] at hok; cases hok

lemma runHandler_eventBus {go : DispatchFn} (hgo : PreservesBus go)
    (W : Conn → Bool) (h : HandlerId) (ev : Event) (cs : ChatServer)
    (res : ChatServer × List Eff) (hok : runHandler go W h ev cs = .ok res) :
    res.1.eventBus = cs.eventBus := by
  cases h with
  | onNewConnection =>
    simp only [runHandler] at hok
    exact onNewConnection_eventBus hok
  | onDisconnected =>
    simp only [runHandler] at hok
    exact onDisconnected_eventBus hok
  | onMessageReceived =>
    simp only [runHandler] at hok
    unfold onMessageReceived at hok
    cases hev : ev.data with
    | conn c => rw [hev] at hok; cases hok
    | str s =>
      rw [hev] at hok
      exact broadcastWrites_eventBus hgo W s cs.clients cs res hok
    | intVal n => rw [hev] at hok; cases hok

lemma runSeq_handler_eventBus {go : DispatchFn} (hgo : PreservesBus go)
    (W : Conn → Bool) :
    ∀ hs ev cs res, runSeq (runHandler go W) hs ev cs = .ok res →
      res.1.eventBus = cs.eventBus := by
  intro hs
  induction hs with
  | nil =>
    intro ev cs res h
    simp only [runSeq] at h
    cases h
    rfl
  | cons hd tl ih =>
    intro ev cs res h
    unfold runSeq at h
    cases h1 : runHandler go W hd ev cs with
    | error e => rw [h1] at h; cases h
    | ok r1 =>
      rw [h1] at h
      cases h2 : runSeq (runHandler go W) tl ev r1.1 with
      | error e => simp only [h2] at h; cases h
      | ok r2 =>
        simp only [h2] at h
        cases h
        rw [ih ev r1.1 r2 h2]
        exact runHandler_eventBus hgo W hd ev cs r1 h1

lemma dispatchServer_preservesBus (W : Conn → Bool) :
    ∀ fuel, PreservesBus (dispatchServer W fuel) := by
  intro fuel
  induction fuel with
  | zero =>
    intro t d cs res h
    cases h
  | succ f ih =>
    intro t d cs res h
    unfold dispatchServer EventBus.Dispatch at h
    exact runSeq_handler_eventBus ih W _ _ cs res h

/-! ### Dispatch with the wiring installed by `ChatServer.Start` -/

lemma mapGet_startBus_new :
    mapGet startBus.handlers newConnectionType = [HandlerId.onNewConnection] := by rfl

lemma mapGet_startBus_disc :
    mapGet startBus.handlers disconnectedType = [HandlerId.onDisconnected] := by rfl

lemma mapGet_startBus_msg :
    mapGet startBus.handlers messageReceivedType = [HandlerId.onMessageReceived] := by rfl

lemma dispatch_newConnection {W : Conn → Bool} {fuel : Nat} (hf : 1 ≤ fuel)
    {cs : ChatServer} (hbus : cs.eventBus = startBus) (c : Conn) :
    dispatchServer W fuel newConnectionType (.conn c) cs =
      .ok ({ cs with clients := clientsInsert cs.clients c },
        [Eff.printNewConnection c.addr]) := by
  obtain ⟨f, rfl⟩ : ∃ f, fuel = f + 1 :=
    ⟨fuel - 1, (Nat.succ_pred_eq_of_pos hf).symm⟩
  unfold dispatchServer EventBus.Dispatch
  rw [hbus, mapGet_startBus_new]
  simp [runSeq, runHandler, onNewConnection, hbus]

lemma dispatch_disconnected {W : Conn → Bool} {fuel : Nat} (hf : 1 ≤ fuel)
    {cs : ChatServer} (hbus : cs.eventBus = startBus) (c : Conn) :
    dispatchServer W fuel disconnectedType (.conn c) cs =
      .ok ({ cs with clients := clientsDelete cs.clients c },
        [Eff.printDisconnected c.addr]) := by
  obtain ⟨f, rfl⟩ : ∃ f, fuel = f + 1 :=
    ⟨fuel - 1, (Nat.succ_pred_eq_of_pos hf).symm⟩
  unfold dispatchServer EventBus.Dispatch
  rw [hbus, mapGet_startBus_disc]
  simp [runSeq, runHandler, onDisconnected, hbus]

lemma mem_broadcastEffs_write {W : Conn → Bool} {msg : GoStr} {l : List Conn}
    {c : Conn} (hc : c ∈ l) (hw : W c = true) :
    Eff.write c msg ∈ broadcastEffs W msg l := by
  induction l with
  | nil => cases hc
  | cons x rest ih =>
    rcases List.mem_cons.mp hc with rfl | hmem
    · simp [broadcastEffs, hw]
    · by_cases hx : W x = true <;> simp [broadcastEffs, hx, ih hmem]

lemma mem_broadcastEffs_print {W : Conn → Bool} {msg : GoStr} {l : List Conn}
    {c : Conn} (hc : c ∈ l) (hw : W c = false) :
    Eff.printDisconnected c.addr ∈ broadcastEffs W msg l := by
  induction l with
  | nil => cases hc
  | cons x rest ih =>
    rcases List.mem_cons.mp hc with rfl | hmem
    · simp [broadcastEffs, hw]
    · by_cases hx : W x = true <;> simp [broadcastEffs, hx, ih hmem]

/-- One broadcast of `onMessageReceived` over a registry snapshot, with
the start wiring: every snapshot member with a succeeding write receives
the message bytes, every member with a failing write is removed from the
registry by a nested `disconnected` dispatch (leaving its notice in the
trace), and the loop always runs to completion. -/
lemma broadcastWrites_startBus {W : Conn → Bool} {fuel : Nat} (hf : 1 ≤ fuel)
    (msg : GoStr) :
    ∀ snap cs, cs.eventBus = startBus → snap.Nodup →
      (∀ c ∈ snap, c ∈ cs.clients) →
      broadcastWrites (dispatchServer W fuel) W msg snap cs =
        .ok ({ cs with clients :=
                cs.clients.filter (fun x => !(decide (x ∈ snap)) || W x) },
             broadcastEffs W msg snap) := by
  intro snap
  induction snap with
  | nil =>
    intro cs hbus hnd hsub
    have : cs.clients.filter (fun x => !(decide (x ∈ ([] : List Conn))) || W x)
        = cs.clients := by
      refine List.filter_eq_self.mpr ?_
      intro a _
      simp
    simp [broadcastWrites, broadcastEffs, this]
  | cons c rest ih =>
    intro cs hbus hnd hsub
    have hc : c ∈ cs.clients := hsub c (List.mem_cons_self c rest)
    have hcnr : c ∉ rest := (List.nodup_cons.mp hnd).1
    have hndr : rest.Nodup := (List.nodup_cons.mp hnd).2
    unfold broadcastWrites
    rw [if_pos hc]
    by_cases hw : W c = true
    · rw [if_pos hw]
      rw [ih cs hbus hndr (fun x hx => hsub x (List.mem_cons_of_mem c hx))]
      have hfilter :
          cs.clients.filter (fun x => !(decide (x ∈ rest)) || W x)
            = cs.clients.filter (fun x => !(decide (x ∈ c :: rest)) || W x) := by
        refine List.filter_congr ?_
        intro x _
        by_cases hxc : x = c
        · subst hxc
          simp [hcnr, hw]
        · simp [List.mem_cons, hxc]
      rw [hfilter]
      simp [broadcastEffs, hw]
    · have hw' : W c = false := by
        cases hWc : W c
        · rfl
        · exact absurd hWc hw
      rw [if_neg (by simp [hw'])]
      rw [dispatch_disconnected hf hbus c]
      have hbus1 : ({ cs with clients := clientsDelete cs.clients c } :
          ChatServer).eventBus = startBus := hbus
      have hsub1 : ∀ x ∈ rest,
          x ∈ ({ cs with clients := clientsDelete cs.clients c } :
            ChatServer).clients := by
        intro x hx
        refine mem_clientsDelete.mpr ⟨hsub x (List.mem_cons_of_mem c hx), ?_⟩
        intro hxc
        exact hcnr (hxc ▸ hx)
      have hrec := ih { cs with clients := clientsDelete cs.clients c }
        hbus1 hndr hsub1
      simp only [hrec]
      have hfilter :
          List.filter (fun x => !(decide (x ∈ rest)) || W x)
              (clientsDelete cs.clients c)
            = cs.clients.filter (fun x => !(decide (x ∈ c :: rest)) || W x) := by
        unfold clientsDelete
        rw [List.filter_filter]
        refine List.filter_congr ?_
        intro x _
        by_cases hxc : x = c
        · subst hxc
          simp [hw']
        · simp [List.mem_cons, hxc]
      rw [hfilter]
      simp [broadcastEffs, hw']

/-- Full characterization of a `message-received` dispatch with the
start wiring: the surviving registry is the members whose write
succeeded, and the trace is one write (or one self-healing disconnect
notice) per member, in registry order. -/
lemma dispatch_messageReceived {W : Conn → Bool} {fuel : Nat} (hf : 2 ≤ fuel)
    {cs : ChatServer} (hbus : cs.eventBus = startBus)
    (hnd : cs.clients.Nodup) (msg : GoStr) :
    dispatchServer W fuel messageReceivedType (.str msg) cs =
      .ok ({ cs with clients := cs.clients.filter W },
        broadcastEffs W msg cs.clients) := by
  obtain ⟨f, rfl⟩ : ∃ f, fuel = f + 1 :=
    ⟨fuel - 1, (Nat.succ_pred_eq_of_pos (le_trans one_le_two hf)).symm⟩
  have hf1 : 1 ≤ f := Nat.lt_succ_iff.mp hf
  unfold dispatchServer EventBus.Dispatch
  rw [hbus, mapGet_startBus_msg]
  have hb := @broadcastWrites_startBus W f hf1 msg cs.clients cs hbus hnd
    (fun _ hx => hx)
  have hfilter :
      cs.clients.filter (fun x => !(decide (x ∈ cs.clients)) || W x)
        = cs.clients.filter W := by
    refine List.filter_congr ?_
    intro x hx
    simp [hx]
  rw [hfilter] at hb
  simp [runSeq, runHandler, onMessageReceived, hb, hbus]

/-! ### Claim theorems -/

/-- C1: for every event type `t` and every sequence of `k` handlers
registered for `t` via `Register`, a single `Dispatch` of `t` finds
exactly those `k` handlers in registration order, invokes each exactly
once in that order (the instrumented run records the invocation list),
and runs them synchronously on the caller's state, returning only after
the last handler has returned (`runSeq` threads the state through the
handlers one after the other). -/
theorem dispatch_invokes_handlers_in_registration_order
    {α σ ε : Type} (run : α → Event → σ → Except RunErr (σ × List ε))
    (b0 : EventBus α) (t : String) (hs : List α) (d : GoValue) (s : σ)
    (h0 : mapGet b0.handlers t = []) :
    mapGet (registerList b0 t hs).handlers t = hs
    ∧ EventBus.Dispatch run (registerList b0 t hs) t d s
        = runSeq run hs ⟨t, d⟩ s
    ∧ EventBus.Dispatch logInvoke (registerList b0 t hs) t d ()
        = .ok ((), hs) := by
  have hh : mapGet (registerList b0 t hs).handlers t = hs := by
    rw [mapGet_registerList, h0]
    rfl
  refine ⟨hh, ?_, ?_⟩
  · unfold EventBus.Dispatch
    rw [hh]
  · unfold EventBus.Dispatch
    rw [hh, runSeq_logInvoke]

/-- Witness for C1 at two handlers registered for `message-received`. -/
theorem dispatch_invokes_handlers_in_registration_order_witness :
    mapGet (NewEventBus : EventBus Nat).handlers messageReceivedType = []
    ∧ (mapGet (registerList (NewEventBus : EventBus Nat)
          messageReceivedType [5, 7]).handlers messageReceivedType = [5, 7]
      ∧ EventBus.Dispatch addInvoke
          (registerList NewEventBus messageReceivedType [5, 7])
          messageReceivedType (.str []) 0
          = runSeq addInvoke [5, 7] ⟨messageReceivedType, .str []⟩ 0
      ∧ EventBus.Dispatch logInvoke
          (registerList NewEventBus messageReceivedType [5, 7])
          messageReceivedType (.str []) ()
          = .ok ((), [5, 7])) :=
  ⟨rfl, dispatch_invokes_handlers_in_registration_order addInvoke
    NewEventBus messageReceivedType [5, 7] (.str []) 0 rfl⟩

/-- C2: a `message-received` dispatch with payload `msg` on a registry
of live connections writes exactly the bytes of `msg` to every registry
member whose write succeeds (the originator is not excluded — every
member is written to), removes every member whose write fails from the
registry (through a `disconnected` dispatch, whose notice is in the
trace), continues the broadcast to the remaining members, and returns
normally — no failure is reported to the sender. -/
theorem broadcast_completeness_and_self_healing
    (W : Conn → Bool) {fuel : Nat} (hf : 2 ≤ fuel) {cs : ChatServer}
    (hbus : cs.eventBus = startBus) (hnd : cs.clients.Nodup) (msg : GoStr) :
    dispatchServer W fuel messageReceivedType (.str msg) cs
      = .ok ({ cs with clients := cs.clients.filter W },
             broadcastEffs W msg cs.clients)
    ∧ (∀ c ∈ cs.clients, W c = true →
        Eff.write c msg ∈ broadcastEffs W msg cs.clients)
    ∧ (∀ c ∈ cs.clients, W c = false →
        c ∉ cs.clients.filter W
        ∧ Eff.printDisconnected c.addr ∈ broadcastEffs W msg cs.clients) := by
  refine ⟨dispatch_messageReceived hf hbus hnd msg, ?_, ?_⟩
  · intro c hc hw
    exact mem_broadcastEffs_write hc hw
  · intro c hc hw
    refine ⟨?_, mem_broadcastEffs_print hc hw⟩
    intro hmem
    have := (List.mem_filter.mp hmem).2
    rw [hw] at this
    cases this

/-- Witness for C2: two live connections, the write to `connB` fails. -/
theorem broadcast_completeness_and_self_healing_witness :
    (2 ≤ 2 ∧ (⟨startBus, [connA, connB]⟩ : ChatServer).eventBus = startBus
      ∧ ([connA, connB] : List Conn).Nodup)
    ∧ (dispatchServer wOnlyA 2 messageReceivedType (.str [7])
          ⟨startBus, [connA, connB]⟩
        = .ok ({ eventBus := startBus,
                 clients := ([connA, connB] : List Conn).filter wOnlyA },
               broadcastEffs wOnlyA [7] [connA, connB])
      ∧ (∀ c ∈ ([connA, connB] : List Conn), wOnlyA c = true →
          Eff.write c [7] ∈ broadcastEffs wOnlyA [7] [connA, connB])
      ∧ (∀ c ∈ ([connA, connB] : List Conn), wOnlyA c = false →
          c ∉ ([connA, connB] : List Conn).filter wOnlyA
          ∧ Eff.printDisconnected c.addr
              ∈ broadcastEffs wOnlyA [7] [connA, connB])) :=
  ⟨⟨le_refl 2, rfl, by decide⟩,
   broadcast_completeness_and_self_healing wOnlyA (le_refl 2) rfl (by decide) [7]⟩

/-- C3: with the start wiring, after a `new-connection` dispatch for `c`
the registry contains `c`; after a subsequent `disconnected` dispatch
for `c` the registry no longer contains `c`; and a `disconnected`
dispatch for a `c` not in the registry leaves the registry unchanged. -/
theorem registry_tracks_connection_lifecycle
    (W : Conn → Bool) {f1 f2 f3 : Nat} (h1 : 1 ≤ f1) (h2 : 1 ≤ f2)
    (h3 : 1 ≤ f3) {cs : ChatServer} (hbus : cs.eventBus = startBus)
    (c : Conn) :
    (∃ cs1 e1, dispatchServer W f1 newConnectionType (.conn c) cs = .ok (cs1, e1)
      ∧ c ∈ cs1.clients
      ∧ ∃ cs2 e2, dispatchServer W f2 disconnectedType (.conn c) cs1 = .ok (cs2, e2)
        ∧ c ∉ cs2.clients)
    ∧ (c ∉ cs.clients →
        ∃ cs3 e3, dispatchServer W f3 disconnectedType (.conn c) cs = .ok (cs3, e3)
          ∧ cs3.clients = cs.clients) := by
  constructor
  · refine ⟨_, _, dispatch_newConnection h1 hbus c,
      mem_clientsInsert_self cs.clients c, ?_⟩
    have hbus1 : ({ cs with clients := clientsInsert cs.clients c } :
        ChatServer).eventBus = startBus := hbus
    exact ⟨_, _, dispatch_disconnected h2 hbus1 c,
      not_mem_clientsDelete_self _ c⟩
  · intro hnc
    exact ⟨_, _, dispatch_disconnected h3 hbus c,
      clientsDelete_of_not_mem hnc⟩

/-- Witness for C3 at a fresh server and a never-registered connection. -/
theorem registry_tracks_connection_lifecycle_witness :
    (1 ≤ 1 ∧ (⟨startBus, []⟩ : ChatServer).eventBus = startBus)
    ∧ ((∃ cs1 e1, dispatchServer wAll 1 newConnectionType (.conn connA)
          ⟨startBus, []⟩ = .ok (cs1, e1)
        ∧ connA ∈ cs1.clients
        ∧ ∃ cs2 e2, dispatchServer wAll 1 disconnectedType (.conn connA) cs1
            = .ok (cs2, e2) ∧ connA ∉ cs2.clients)
      ∧ (connA ∉ (⟨startBus, []⟩ : ChatServer).clients →
          ∃ cs3 e3, dispatchServer wAll 1 disconnectedType (.conn connA)
              ⟨startBus, []⟩ = .ok (cs3, e3)
            ∧ cs3.clients = (⟨startBus, []⟩ : ChatServer).clients)) :=
  ⟨⟨le_refl 1, rfl⟩,
   registry_tracks_connection_lifecycle wAll (le_refl 1) (le_refl 1)
     (le_refl 1) rfl connA⟩

/-- C4 (code bug): in the source, a successful accept only dispatches
`new-connection`; `NewClient`/`Client.Start` are never called, so no
reader loop is ever started (no `Eff.startReader` appears in any trace),
contrary to the claim and the spec. The other parts of the claim hold: a
successful accept dispatches `new-connection` with the handle (`connA`,
then `connB`, both registered), and a failed accept is reported and the
loop continues to the next accept. -/
theorem accept_loop_never_starts_reader :
    ChatServer.Start wAll 2 mainPort none
        [AcceptResult.ok connA, AcceptResult.err 0, AcceptResult.ok connB]
        NewChatServer
      = .ok (⟨startBus, [connA, connB]⟩,
          [Eff.printListening mainPort, Eff.printNewConnection connA.addr,
           Eff.printAcceptError 0, Eff.printNewConnection connB.addr], none)
    ∧ ∀ x : Conn, Eff.startReader x ∉
        [Eff.printListening mainPort, Eff.printNewConnection connA.addr,
         Eff.printAcceptError 0, Eff.printNewConnection connB.addr] := by
  constructor
  · rfl
  · intro x
    simp

/-- C5: the reader loop of `Client.Start` reads into a fixed 1024-byte
buffer (so every successful read yields at most 1024 bytes, the bound in
the hypothesis); each successful read of a chunk dispatches exactly one
`message-received` event carrying exactly the bytes of that chunk, in
read order, with no framing or reassembly; the read failure that follows
dispatches exactly one `disconnected` event and the loop returns — its
only exit. -/
theorem reader_loop_dispatch_trace (c : Conn) (reads : List GoStr)
    (hbuf : ∀ bs ∈ reads, bs.length ≤ 1024) :
    readerLoop logDispatch c reads () = .ok ((), readerDispatchTrace c reads) := by
  clear hbuf
  induction reads with
  | nil => rfl
  | cons bs rest ih =>
    simp [readerLoop, logDispatch, readerDispatchTrace] at ih ⊢
    simp [ih]

/-- Witness for C5 at two reads of one and two bytes. -/
theorem reader_loop_dispatch_trace_witness :
    (∀ bs ∈ ([[1], [2, 3]] : List GoStr), bs.length ≤ 1024)
    ∧ readerLoop logDispatch connA [[1], [2, 3]] ()
        = .ok ((), readerDispatchTrace connA [[1], [2, 3]]) :=
  ⟨by decide, reader_loop_dispatch_trace connA [[1], [2, 3]] (by decide)⟩

/-- C6 counterexample: dispatching `disconnected` twice in a row for the
same connection (removed by the first dispatch) is NOT free of repeated
observable effects: the second dispatch emits the very same non-empty
disconnect notice the first one emitted (`onDisconnected` prints its
notice whether or not the connection is still registered), refuting
"repeats none of the first dispatch's observable effects". -/
theorem disconnected_repeat_counterexample :
    dispatchServer wAll 1 disconnectedType (GoValue.conn connA)
        ⟨startBus, [connA]⟩
      = .ok (⟨startBus, []⟩, [Eff.printDisconnected connA.addr])
    ∧ dispatchServer wAll 1 disconnectedType (GoValue.conn connA)
        ⟨startBus, []⟩
      = .ok (⟨startBus, []⟩, [Eff.printDisconnected connA.addr])
    ∧ ([Eff.printDisconnected connA.addr] : List Eff) ≠ [] := by
  refine ⟨rfl, rfl, ?_⟩
  simp

/-- C6 amended: dispatching `disconnected` twice in a row for the same
connection produces no error and no duplicate registry mutation: the
second dispatch leaves the server state (in particular the registry)
exactly unchanged; its only observable effect is the repeated log-style
disconnect notice. -/
theorem disconnected_second_dispatch_no_op_on_registry
    (W : Conn → Bool) {f1 f2 : Nat} (h1 : 1 ≤ f1) (h2 : 1 ≤ f2)
    {cs : ChatServer} (hbus : cs.eventBus = startBus) (c : Conn) :
    ∃ cs1, dispatchServer W f1 disconnectedType (.conn c) cs
        = .ok (cs1, [Eff.printDisconnected c.addr])
      ∧ c ∉ cs1.clients
      ∧ dispatchServer W f2 disconnectedType (.conn c) cs1
        = .ok (cs1, [Eff.printDisconnected c.addr]) := by
  refine ⟨_, dispatch_disconnected h1 hbus c,
    not_mem_clientsDelete_self cs.clients c, ?_⟩
  have hbus1 : ({ cs with clients := clientsDelete cs.clients c } :
      ChatServer).eventBus = startBus := hbus
  rw [dispatch_disconnected h2 hbus1 c]
  have hdel : clientsDelete (clientsDelete cs.clients c) c
      = clientsDelete cs.clients c :=
    clientsDelete_of_not_mem (not_mem_clientsDelete_self cs.clients c)
  simp [hdel]

/-- Witness for the amended C6 at a one-member registry. -/
theorem disconnected_second_dispatch_no_op_on_registry_witness :
    (1 ≤ 1 ∧ (⟨startBus, [connA]⟩ : ChatServer).eventBus = startBus)
    ∧ ∃ cs1, dispatchServer wAll 1 disconnectedType (.conn connA)
          ⟨startBus, [connA]⟩
        = .ok (cs1, [Eff.printDisconnected connA.addr])
      ∧ connA ∉ cs1.clients
      ∧ dispatchServer wAll 1 disconnectedType (.conn connA) cs1
        = .ok (cs1, [Eff.printDisconnected connA.addr]) :=
  ⟨⟨le_refl 1, rfl⟩,
   disconnected_second_dispatch_no_op_on_registry wAll (le_refl 1)
     (le_refl 1) rfl connA⟩

/-- C7: a `Dispatch` for an event type with zero registered handlers is
a silent no-op: the generic bus finds no handlers, invokes nothing,
emits nothing and returns the state untouched; on the chat server, the
dispatch returns normally with the server (handler table and registry
alike) unchanged and an empty effect trace. -/
theorem dispatch_without_handlers_is_noop
    {α σ ε : Type} (run : α → Event → σ → Except RunErr (σ × List ε))
    (eb : EventBus α) (t : String) (d : GoValue) (s : σ)
    (W : Conn → Bool) (fuel : Nat) (cs : ChatServer) :
    (mapGet eb.handlers t = [] →
      EventBus.Dispatch run eb t d s = .ok (s, []))
    ∧ (1 ≤ fuel → mapGet cs.eventBus.handlers t = [] →
        dispatchServer W fuel t d cs = .ok (cs, [])) := by
  constructor
  · intro h0
    unfold EventBus.Dispatch
    rw [h0]
    rfl
  · intro hf h0
    obtain ⟨f, rfl⟩ : ∃ f, fuel = f + 1 :=
      ⟨fuel - 1, (Nat.succ_pred_eq_of_pos hf).symm⟩
    unfold dispatchServer EventBus.Dispatch
    rw [h0]
    rfl

/-- Witness for C7 at an event type nothing is registered for. -/
theorem dispatch_without_handlers_is_noop_witness :
    EventBus.Dispatch addInvoke (NewEventBus : EventBus Nat) otherType
        (.str []) 0 = .ok (0, [])
    ∧ dispatchServer wAll 1 otherType (.str []) ⟨startBus, [connA]⟩
        = .ok (⟨startBus, [connA]⟩, []) :=
  ⟨(dispatch_without_handlers_is_noop addInvoke NewEventBus otherType
      (.str []) 0 wAll 1 ⟨startBus, [connA]⟩).1 rfl,
   (dispatch_without_handlers_is_noop addInvoke NewEventBus otherType
      (.str []) 0 wAll 1 ⟨startBus, [connA]⟩).2 (le_refl 1) rfl⟩

/-- C8: a listen/bind failure at startup is fatal: `Start` returns the
error immediately — the returned server state is the input state, so no
handler has been registered, and the trace is empty, so no connection
has been accepted or served — and `main` reports the error and returns
(the process exits without serving: its whole trace is the one error
report). -/
theorem listen_failure_is_fatal (W : Conn → Bool) (fuel : Nat)
    (port : String) (e : GoErr) (accepts : List AcceptResult)
    (cs : ChatServer) :
    ChatServer.Start W fuel port (some e) accepts cs = .ok (cs, [], some e)
    ∧ mainGo W fuel (some e) accepts
        = .ok (NewChatServer, [Eff.printStartError e]) :=
  ⟨rfl, rfl⟩

/-- C9: each handler begins with an unchecked dynamic cast of the event
payload: `onNewConnection` and `onDisconnected` panic on any payload
that is not a connection handle, and `onMessageReceived` panics on any
payload that is not a string; under the documented payload shapes the
panic branch is unreachable and every handler returns normally
(`onMessageReceived` with the start wiring and enough fuel for its
nested dispatches). -/
theorem handler_payload_cast_panics_or_total
    (go : DispatchFn) (W : Conn → Bool) (fuel : Nat) (cs : ChatServer)
    (d : GoValue) (c : Conn) (msg : GoStr) :
    (isConnVal d = false →
      runHandler go W .onNewConnection ⟨newConnectionType, d⟩ cs
          = .error .panicErr
      ∧ runHandler go W .onDisconnected ⟨disconnectedType, d⟩ cs
          = .error .panicErr)
    ∧ (isStrVal d = false →
        runHandler go W .onMessageReceived ⟨messageReceivedType, d⟩ cs
          = .error .panicErr)
    ∧ runHandler go W .onNewConnection ⟨newConnectionType, .conn c⟩ cs
        = .ok ({ cs with clients := clientsInsert cs.clients c },
            [Eff.printNewConnection c.addr])
    ∧ runHandler go W .onDisconnected ⟨disconnectedType, .conn c⟩ cs
        = .ok ({ cs with clients := clientsDelete cs.clients c },
            [Eff.printDisconnected c.addr])
    ∧ (1 ≤ fuel → cs.eventBus = startBus → cs.clients.Nodup →
        ∃ res, runHandler (dispatchServer W fuel) W .onMessageReceived
            ⟨messageReceivedType, .str msg⟩ cs = .ok res) := by
  refine ⟨?_, ?_, rfl, rfl, ?_⟩
  · intro hd
    cases d with
    | conn c' => cases hd
    | str s => exact ⟨rfl, rfl⟩
    | intVal n => exact ⟨rfl, rfl⟩
  · intro hd
    cases d with
    | conn c' => rfl
    | str s => cases hd
    | intVal n => rfl
  · intro hf hbus hnd
    have hb := @broadcastWrites_startBus W fuel hf msg cs.clients cs hbus hnd
      (fun _ hx => hx)
    exact ⟨_, hb⟩

/-- Witness for C9: a string payload makes `onNewConnection` panic, a
connection payload makes `onMessageReceived` panic, and a string payload
lets `onMessageReceived` run to completion. -/
theorem handler_payload_cast_panics_or_total_witness :
    runHandler (dispatchServer wAll 1) wAll .onNewConnection
        ⟨newConnectionType, GoValue.str []⟩ ⟨startBus, []⟩
      = .error .panicErr
    ∧ runHandler (dispatchServer wAll 1) wAll .onMessageReceived
        ⟨messageReceivedType, GoValue.conn connA⟩ ⟨startBus, []⟩
      = .error .panicErr
    ∧ ∃ res, runHandler (dispatchServer wAll 1) wAll .onMessageReceived
        ⟨messageReceivedType, GoValue.str []⟩ ⟨startBus, [connA]⟩
      = .ok res :=
  ⟨((handler_payload_cast_panics_or_total (dispatchServer wAll 1) wAll 1
      ⟨startBus, []⟩ (GoValue.str []) connA []).1 rfl).1,
   (handler_payload_cast_panics_or_total (dispatchServer wAll 1) wAll 1
      ⟨startBus, []⟩ (GoValue.conn connA) connA []).2.1 rfl,
   (handler_payload_cast_panics_or_total (dispatchServer wAll 1) wAll 1
      ⟨startBus, [connA]⟩ (GoValue.str []) connA []).2.2.2.2 (le_refl 1)
     rfl (by decide)⟩

/-- C10: `Register t h` appends `h` as the last handler for `t` and
leaves the handler list of every other event type unchanged; a server
dispatch never modifies the handler table — whenever it returns, the
table of the resulting state is the table it started from (neither the
set of registered types nor any handler list changed). -/
theorem register_appends_dispatch_preserves_table
    {α : Type} (eb : EventBus α) (t t' : String) (h : α)
    (W : Conn → Bool) (fuel : Nat) (t2 : String) (d : GoValue)
    (cs : ChatServer) :
    mapGet (eb.Register t h).handlers t = mapGet eb.handlers t ++ [h]
    ∧ (t' ≠ t →
        mapGet (eb.Register t h).handlers t' = mapGet eb.handlers t')
    ∧ (∀ res, dispatchServer W fuel t2 d cs = .ok res →
        res.1.eventBus = cs.eventBus) :=
  ⟨mapGet_Register_self eb t h,
   fun hne => mapGet_Register_ne eb h hne,
   fun res hres => dispatchServer_preservesBus W fuel t2 d cs res hres⟩

/-- Witness for C10: registering a second handler for `new-connection`
on the start table, and a broadcast dispatch that mutates the registry
but not the table. -/
theorem register_appends_dispatch_preserves_table_witness :
    (disconnectedType ≠ newConnectionType
      ∧ mapGet ((startBus.Register newConnectionType
            HandlerId.onDisconnected)).handlers disconnectedType
          = mapGet startBus.handlers disconnectedType)
    ∧ (dispatchServer wOnlyA 2 messageReceivedType (GoValue.str [7])
          ⟨startBus, [connA, connB]⟩
        = .ok (⟨startBus, [connA]⟩,
            [Eff.write connA [7], Eff.printDisconnected connB.addr])
      ∧ (⟨startBus, [connA]⟩ : ChatServer).eventBus
          = (⟨startBus, [connA, connB]⟩ : ChatServer).eventBus) :=
  ⟨⟨by decide,
    (register_appends_dispatch_preserves_table startBus newConnectionType
      disconnectedType HandlerId.onDisconnected wOnlyA 2
      messageReceivedType (GoValue.str [7])
      ⟨startBus, [connA, connB]⟩).2.1 (by decide)⟩,
   ⟨rfl,
    (register_appends_dispatch_preserves_table startBus newConnectionType
      disconnectedType HandlerId.onDisconnected wOnlyA 2
      messageReceivedType (GoValue.str [7])
      ⟨startBus, [connA, connB]⟩).2.2
      (⟨startBus, [connA]⟩, [Eff.write connA [7],
        Eff.printDisconnected connB.addr]) rfl⟩⟩

end GoChat
